import Mathlib

/-!
Verification development for the Hold-Craft-Launcher game-launch orchestrator
(`src/core/JavaLauncher.js` and `src/core/GameManager.js`).

The JavaScript source is shallowly embedded: strings are `String`/`List Char`,
JavaScript values that may be a number or a string (the `version` field built by
`parseInt(version) || version`) are the sum type `JSVal`, thrown exceptions are
`Except.error`, event emission is an explicit event list, and the mutable
launcher fields (`gameProcess`, `isRunning`, `gameOutput`) are an explicit
state record.  Asynchronous collaborators (the filesystem probe behind
`checkJavaVersion`, the config manager, the spawned pid) enter as explicit
environment parameters, so every function is pure and executable.
-/

/-- Characters the JavaScript regex `\s` class matches, restricted to the
code points that can occur in a `java -version` banner: space, TAB, LF, VT,
FF, CR and NBSP. -/
def isSpaceChar (c : Char) : Bool :=
  c.toNat = 32 || (9 ≤ c.toNat && c.toNat ≤ 13) || c.toNat = 160

/-- Characters the JavaScript regex `.` matches: anything but a line
terminator (LF, CR, LS, PS). -/
def isRegexDot (c : Char) : Bool :=
  !(c.toNat = 10 || c.toNat = 13 || c.toNat = 8232 || c.toNat = 8233)

/-- ASCII lower-casing, as `String.prototype.toLowerCase` acts on the ASCII
banner text the launcher inspects. -/
def lcChar (c : Char) : Char :=
  if 65 ≤ c.toNat ∧ c.toNat ≤ 90 then Char.ofNat (c.toNat + 32) else c

/-- `hasSub needle hay` models `hay.includes(needle)` (substring test, used
for `lowerLine.includes(...)` and `pattern.test(...)` on literal patterns). -/
def hasSub (needle : List Char) : List Char → Bool
  | [] => needle.isEmpty
  | c :: cs => needle.isPrefixOf (c :: cs) || hasSub needle cs

/-- `splitOnChar sep cs` models `String.prototype.split(sep)` for a
single-character separator: `"".split` gives `[""]`, separators at the ends
give empty fields. -/
def splitOnChar (sep : Char) : List Char → List (List Char)
  | [] => [[]]
  | c :: cs =>
    let r := splitOnChar sep cs
    if c = sep then [] :: r
    else
      match r with
      | [] => [[c]]
      | h :: t => (c :: h) :: t

/-- Consume an exact literal at the head of the input, returning the rest. -/
def dropLit : List Char → List Char → Option (List Char)
  | [], cs => some cs
  | _ :: _, [] => none
  | l :: ls, c :: cs => if c = l then dropLit ls cs else none

/-- Consume a maximal nonempty run of characters satisfying `p` (the
backtracking-free reading of a greedy `X+` whose follower is disjoint
from `X`). -/
def takeWhile1 (p : Char → Bool) (cs : List Char) : Option (List Char × List Char) :=
  let t := cs.takeWhile p
  if t.isEmpty then none else some (t, cs.dropWhile p)

/-- Anchored match of `/version\s+"([^"]+)"/` at the head of the input,
returning the capture group. -/
def verCapAt (cs : List Char) : Option (List Char) := do
  let cs ← dropLit "version".data cs
  let (_, cs) ← takeWhile1 isSpaceChar cs
  let cs ← dropLit ['"'] cs
  let (cap, cs) ← takeWhile1 (fun c => c ≠ '"') cs
  let _ ← dropLit ['"'] cs
  pure cap

/-- Anchored match of `/\(build\s+([^)]+)\)/` at the head of the input,
returning the capture group. -/
def buildCapAt (cs : List Char) : Option (List Char) := do
  let cs ← dropLit "(build".data cs
  let (_, cs) ← takeWhile1 isSpaceChar cs
  let (cap, cs) ← takeWhile1 (fun c => c ≠ ')') cs
  let _ ← dropLit [')'] cs
  pure cap

/-- Leftmost-match regex search: try the anchored matcher at every position,
left to right, as `String.prototype.match` does. -/
def findFirst (f : List Char → Option α) : List Char → Option α
  | [] => none
  | c :: cs => (f (c :: cs)).orElse fun _ => findFirst f cs

/-- Value of a maximal leading decimal-digit run, or `none` when the first
character is not a digit. -/
def leadingNat (cs : List Char) : Option Nat :=
  let ds := cs.takeWhile fun c => c.isDigit
  if ds.isEmpty then none
  else some (ds.foldl (fun n c => n * 10 + (c.toNat - 48)) 0)

/-- Hex-digit test for `parseInt` with an `0x` prefix. -/
def isHexDigitChar (c : Char) : Bool :=
  (48 ≤ c.toNat && c.toNat ≤ 57) ||
  (97 ≤ c.toNat && c.toNat ≤ 102) ||
  (65 ≤ c.toNat && c.toNat ≤ 70)

/-- Value of a maximal leading hex-digit run. -/
def leadingHexNat (cs : List Char) : Option Nat :=
  let ds := cs.takeWhile isHexDigitChar
  if ds.isEmpty then none
  else
    some (ds.foldl
      (fun n c =>
        n * 16 +
          (if c.toNat ≤ 57 then c.toNat - 48
           else if 97 ≤ c.toNat then c.toNat - 87
           else c.toNat - 55))
      0)

/-- Magnitude part of `parseInt`: an `0x`/`0X` prefix switches to base 16,
otherwise leading decimal digits are read and the rest is ignored. -/
def parseIntMag : List Char → Option Nat
  | '0' :: 'x' :: rest => leadingHexNat rest
  | '0' :: 'X' :: rest => leadingHexNat rest
  | rest => leadingNat rest

/-- `parseIntJS s` models JavaScript `parseInt(s)`: skip leading whitespace,
read an optional sign, then leading digits; `none` stands for `NaN`. -/
def parseIntJS (s : String) : Option Int :=
  match s.data.dropWhile isSpaceChar with
  | '-' :: rest => (parseIntMag rest).map fun n => -(n : Int)
  | '+' :: rest => (parseIntMag rest).map fun n => (n : Int)
  | rest => (parseIntMag rest).map fun n => (n : Int)

/-- A JavaScript value that is either a number or a string, as produced by
`parseInt(version) || version`. -/
inductive JSVal where
  | num (n : Int)
  | str (s : String)
deriving DecidableEq, Repr

/-- String interpolation of a `JSVal` (template literals and the
`version + "-" + path` dedup key). -/
def jsValToString : JSVal → String
  | .num n => toString n
  | .str s => s

/-- The `version` field stored in a candidate: `parseInt(version) || version`
keeps the integer when `parseInt` gives a truthy value and falls back to the
raw string when it gives `NaN` or `0`. -/
def versionValue (v : String) : JSVal :=
  match parseIntJS v with
  | some n => if n = 0 then .str v else .num n
  | none => .str v

/-- Version-token normalisation inside `parseJavaVersion`: a dotted token is
split on `.`; a leading component `1` selects the second component
(`1.8.x -> 8`), otherwise the first component is kept (`11.x.x -> 11`). -/
def normalizeVersion (v : List Char) : List Char :=
  if v.contains '.' then
    let parts := splitOnChar '.' v
    if parts.headD [] = ['1'] then (parts.drop 1).headD [] else parts.headD []
  else v

/-- A discovered runtime candidate, the record literal built at the end of
`parseJavaVersion`. -/
structure JavaInfo where
  path : String
  version : JSVal
  vendor : String
  bitness : String
  type : String
  isValid : Bool
deriving DecidableEq, Repr

/-- The accumulator threaded through the line loop of `parseJavaVersion`. -/
structure ParseSt where
  version : List Char
  vendor : String
  bitness : String
  jtype : String
deriving DecidableEq, Repr

/-- The vendor `if/else if` chain of `parseJavaVersion`, applied to the
lower-cased line. -/
def stepVendor (low : List Char) (st : ParseSt) : ParseSt :=
  if hasSub "openjdk".data low then { st with vendor := "OpenJDK", jtype := "JDK" }
  else if hasSub "java(tm)".data low || hasSub "oracle".data low then
    { st with vendor := "Oracle" }
  else if hasSub "adoptopenjdk".data low || hasSub "adoptium".data low then
    { st with vendor := "Adoptium" }
  else if hasSub "microsoft".data low then { st with vendor := "Microsoft" }
  else if hasSub "zulu".data low then { st with vendor := "Zulu" }
  else if hasSub "amazon".data low then { st with vendor := "Amazon Corretto" }
  else st

/-- The bitness detection of `parseJavaVersion`. -/
def stepBitness (low : List Char) (st : ParseSt) : ParseSt :=
  if hasSub "64-bit".data low then { st with bitness := "64-bit" }
  else if hasSub "32-bit".data low then { st with bitness := "32-bit" }
  else st

/-- The JDK/JRE detection of `parseJavaVersion`. -/
def stepType (low : List Char) (st : ParseSt) : ParseSt :=
  if hasSub "jdk".data low then { st with jtype := "JDK" }
  else if hasSub "jre".data low then { st with jtype := "JRE" }
  else st

/-- One iteration of the line loop of `parseJavaVersion`: the first regex
that matches (`version "…"`, else `(build …)`) overwrites the version token,
then vendor, bitness and kind are updated from the lower-cased line. -/
def stepLine (st : ParseSt) (line : List Char) : ParseSt :=
  let low := line.map lcChar
  let st :=
    match (findFirst verCapAt line).orElse fun _ => findFirst buildCapAt line with
    | some cap => { st with version := normalizeVersion cap }
    | none => st
  stepType low (stepBitness low (stepVendor low st))

/-- `parseJavaVersion(output, javaPath)`: fold the line loop over the
newline-split banner, return `null` when no version token was found,
otherwise the candidate record. -/
def parseJavaVersion (output : String) (javaPath : String) : Option JavaInfo :=
  let st := (splitOnChar '\n' output.data).foldl stepLine ⟨[], "", "64-bit", "JRE"⟩
  if st.version = [] then none
  else
    some
      { path := javaPath
        version := versionValue (String.mk st.version)
        vendor := st.vendor
        bitness := st.bitness
        type := st.jtype
        isValid := true }

/-- The dedup key `version + "-" + path` built in `detectJavaVersions`. -/
def detectKey (j : JavaInfo) : String :=
  jsValToString j.version ++ "-" ++ j.path

/-- The `Map`-based dedup of `detectJavaVersions`: the first candidate with a
given key is kept, later ones are dropped. -/
def dedupByKeyAux (seen : List String) : List JavaInfo → List JavaInfo
  | [] => []
  | j :: js =>
    if seen.contains (detectKey j) then dedupByKeyAux seen js
    else j :: dedupByKeyAux (detectKey j :: seen) js

/-- `compareJavaVersions` sort key: `parseInt(version) || 0`. -/
def sortKey : JSVal → Int
  | .num n => n
  | .str s => (parseIntJS s).getD 0

/-- Stable insertion used to model the stable `Array.prototype.sort` under
the comparator `(a, b) => parseInt(b) - parseInt(a)` (descending key). -/
def insertDesc (x : JavaInfo) : List JavaInfo → List JavaInfo
  | [] => [x]
  | y :: ys =>
    if sortKey x.version ≤ sortKey y.version then y :: insertDesc x ys
    else x :: y :: ys

/-- Stable descending sort by `sortKey`. -/
def sortDescByVersion : List JavaInfo → List JavaInfo
  | [] => []
  | x :: xs => insertDesc x (sortDescByVersion xs)

/-- `detectJavaVersions`, given the per-probe outcomes (each a fulfilled
`checkJavaVersion` result, `none` for a failed or unparseable probe): keep
the non-null values, dedup by `version-path` key, sort descending. -/
def detectJavaVersions (probeResults : List (Option JavaInfo)) : List JavaInfo :=
  sortDescByVersion (dedupByKeyAux [] (probeResults.filterMap id))

/-- Full-string numeric reading used for the comparison
`javaInfo.version < 8` when the version field holds a string: JavaScript
coerces the string with `Number`; an integer-valued string yields its value,
anything non-numeric yields `NaN`, and a `NaN` comparison is false.  Only
integer-valued strings are modelled; the claims exercise the comparison on
numeric versions only. -/
def jsNumberWhole (s : String) : Option Int :=
  let cs := (s.data.dropWhile isSpaceChar).reverse.dropWhile isSpaceChar |>.reverse
  match cs with
  | [] => some 0
  | '-' :: rest =>
    if rest ≠ [] ∧ rest.all (fun c => c.isDigit) then (leadingNat rest).map fun n => -(n : Int)
    else none
  | '+' :: rest =>
    if rest ≠ [] ∧ rest.all (fun c => c.isDigit) then (leadingNat rest).map fun n => (n : Int)
    else none
  | rest =>
    if rest.all (fun c => c.isDigit) then (leadingNat rest).map fun n => (n : Int)
    else none

/-- The relational test `version < bound` on a `JSVal`, false when the
string side coerces to `NaN`. -/
def jsValLt (v : JSVal) (bound : Int) : Bool :=
  match v with
  | .num m => decide (m < bound)
  | .str s =>
    match jsNumberWhole s with
    | some m => decide (m < bound)
    | none => false

/-- Environment of `validateJava`: the recommended runtime the launcher
would auto-pick, and the `checkJavaVersion` probe result per path. -/
structure ValidateEnv where
  recommended : Option JavaInfo
  probe : String → Option JavaInfo

/-- `validateJava(javaPath)`: with no path, fall back to the recommended
runtime or throw; with a path, probe it (throw when invalid) and throw when
the probed version is below 8.  `Except.error` models a thrown `Error`. -/
def validateJava (env : ValidateEnv) (javaPath : Option String) : Except String JavaInfo :=
  match javaPath with
  | none =>
    match env.recommended with
    | some r => .ok r
    | none => .error "未找到 Java 运行时环境"
  | some p =>
    match env.probe p with
    | none => .error ("Java 路径无效: " ++ p)
    | some info =>
      if jsValLt info.version 8 then
        .error ("Java 版本过低 (" ++ jsValToString info.version ++ ")，需要 Java 8 或更高版本")
      else .ok info

/-- The structured result of `checkJavaCompatibility`. -/
structure CompatResult where
  compatible : Bool
  message : Option String
  warning : Option String
deriving DecidableEq, Repr

/-- `checkJavaCompatibility(version)`: coerce with `parseInt(version) || 0`
and return a structured verdict; this function never throws. -/
def checkJavaCompatibility (version : JSVal) : CompatResult :=
  let javaVersion : Int :=
    match version with
    | .num m => m
    | .str s => (parseIntJS s).getD 0
  if javaVersion < 8 then
    { compatible := false, message := some "需要 Java 8 或更高版本", warning := none }
  else if javaVersion > 21 then
    { compatible := true
      message := some "新版 Java 可能需要额外参数"
      warning := some "某些模组可能不兼容新版 Java" }
  else { compatible := true, message := none, warning := none }

/-- The JVM argument list built by `prepareLaunchArguments` in
`JavaLauncher.js`: max heap `-Xmx<memory>M`, min heap
`-Xms<floor(memory/2)>M`, fixed G1 flags, the placeholder-bearing flags, and
the `--add-opens` block for Java 9+. -/
def prepareJvmArguments (memory : Nat) (javaVersion : Int) : List String :=
  ["-Xmx" ++ toString memory ++ "M",
   "-Xms" ++ toString (memory / 2) ++ "M",
   "-XX:+UnlockExperimentalVMOptions",
   "-XX:+UseG1GC",
   "-XX:G1NewSizePercent=20",
   "-XX:G1ReservePercent=20",
   "-XX:MaxGCPauseMillis=50",
   "-XX:G1HeapRegionSize=32M",
   "-Djava.library.path=${natives_directory}",
   "-Dminecraft.launcher.brand=hcl",
   "-Dminecraft.launcher.version=1.0.0",
   "-cp", "${classpath}"] ++
  (if 9 ≤ javaVersion then
    ["--add-opens=java.base/java.util.jar=ALL-UNNAMED",
     "--add-opens=java.base/java.lang=ALL-UNNAMED",
     "--add-opens=java.base/java.io=ALL-UNNAMED"]
   else [])

/-- The JVM argument list built by `generateJVMArgs` in `GameManager.js`:
max heap `-Xmx<memory>M`, min heap `-Xms<floor(memory/4)>M`, and the
authentication hosts for non-offline accounts. -/
def gmGenerateJVMArgs (memory : Nat) (accountType : String) : List String :=
  ["-Xmx" ++ toString memory ++ "M",
   "-Xms" ++ toString (memory / 4) ++ "M",
   "-Djava.library.path=${natives_directory}",
   "-Dminecraft.launcher.brand=hcl",
   "-Dminecraft.launcher.version=1.0.0",
   "-cp", "${classpath}"] ++
  (if accountType ≠ "offline" then
    ["-Dminecraft.api.auth.host=https://authserver.mojang.com",
     "-Dminecraft.api.account.host=https://api.mojang.com",
     "-Dminecraft.api.session.host=https://sessionserver.mojang.com"]
   else [])

/-- The JVM argument list built by `optimizeJVMArgs` in `JavaLauncher.js`:
max heap `-Xmx<memory>M`, min heap `-Xms<floor(memory/4)>M`, GC flags by
Java generation, and `-XstartOnFirstThread` on macOS. -/
def optimizeJVMArgs (javaVersion : Int) (memory : Nat) (osType : String) : List String :=
  ["-Xmx" ++ toString memory ++ "M",
   "-Xms" ++ toString (memory / 4) ++ "M"] ++
  (if 9 ≤ javaVersion then
    ["-XX:+UseG1GC", "-XX:G1NewSizePercent=20", "-XX:G1ReservePercent=20",
     "-XX:MaxGCPauseMillis=50", "-XX:G1HeapRegionSize=32M"]
   else
    ["-XX:+UseConcMarkSweepGC", "-XX:+CMSIncrementalMode", "-XX:-UseAdaptiveSizePolicy"]) ++
  ["-XX:+UnlockExperimentalVMOptions", "-XX:+DisableExplicitGC"] ++
  (if osType = "darwin" then ["-XstartOnFirstThread"] else [])

/-- The five capture groups `(.{8})(.{4})(.{4})(.{4})(.{12})` of a matched
32-character window, reassembled with dashes as `$1-$2-$3-$4-$5`. -/
def dashify (m : List Char) : List Char :=
  m.take 8 ++ '-' :: ((m.drop 8).take 4 ++ '-' ::
    ((m.drop 12).take 4 ++ '-' :: ((m.drop 16).take 4 ++ '-' :: (m.drop 20).take 12)))

/-- Anchored match of `(.{8})(.{4})(.{4})(.{4})(.{12})`: 32 consecutive
characters each matched by `.`, returning the window and the rest. -/
def matchDot32 (cs : List Char) : Option (List Char × List Char) :=
  let m := cs.take 32
  if m.length = 32 && m.all isRegexDot then some (m, cs.drop 32) else none

/-- `String.prototype.replace` with the non-global UUID regex: the leftmost
32-character window of `.`-matching characters is replaced by its dashed
regrouping; everything before and after is kept. -/
def replaceFirst32 : List Char → List Char
  | [] => []
  | c :: rest =>
    match matchDot32 (c :: rest) with
    | some (m, tail) => dashify m ++ tail
    | none => c :: replaceFirst32 rest

/-- `generateOfflineUUID(username)`: hash `"OfflinePlayer:" + username` (the
hex digest function is a parameter standing for the `crypto` md5 call) and
regroup the digest as `8-4-4-4-12`. -/
def generateOfflineUUID (md5hex : String → String) (username : String) : String :=
  String.mk (replaceFirst32 (md5hex ("OfflinePlayer:" ++ username)).data)

/-- An artifact entry `lib.downloads.artifact` of a manifest library. -/
structure Artifact where
  path : String
deriving DecidableEq, Repr

/-- The `downloads` member of a manifest library. -/
structure LibDownloads where
  artifact : Option Artifact
deriving DecidableEq, Repr

/-- A `manifest.libraries` entry; `none` members model absent JSON fields. -/
structure MLibrary where
  downloads : Option LibDownloads
deriving DecidableEq, Repr

/-- The slice of a version manifest the classpath code reads. -/
structure VersionManifest where
  id : String
  libraries : Option (List MLibrary)
deriving DecidableEq, Repr

/-- The library loop of `generateClasspath`: libraries carrying
`downloads.artifact` contribute `<gameDir>/libraries/<artifact.path>`, in
order; the rest are skipped. -/
def collectLibPaths (gameDir : String) : List MLibrary → List String
  | [] => []
  | lib :: rest =>
    match lib.downloads with
    | some d =>
      match d.artifact with
      | some a => (gameDir ++ "/libraries/" ++ a.path) :: collectLibPaths gameDir rest
      | none => collectLibPaths gameDir rest
    | none => collectLibPaths gameDir rest

/-- The main client archive path `<gameDir>/versions/<id>/<id>.jar`. -/
def clientJarPath (gameDir : String) (v : VersionManifest) : String :=
  gameDir ++ "/versions/" ++ v.id ++ "/" ++ v.id ++ ".jar"

/-- `generateClasspath(versionInfo)`: collect the artifact paths, append the
client jar, join with the platform path delimiter (a parameter, `:` or `;`). -/
def generateClasspath (delim : String) (gameDir : String) (v : VersionManifest) : String :=
  let libraries :=
    (match v.libraries with
     | some ls => collectLibPaths gameDir ls
     | none => []) ++ [clientJarPath gameDir v]
  String.intercalate delim libraries

/-- Modelled from the spec: the classpath entries as §4.3 words them — "the
library artifact paths from `manifest.libraries`, in manifest order" (those
entries that carry an artifact). -/
def classpathEntriesSpec (gameDir : String) (v : VersionManifest) : List String :=
  ((v.libraries.getD []).filterMap fun lib => lib.downloads.bind fun d => d.artifact).map
    fun a => gameDir ++ "/libraries/" ++ a.path

/-- One character of an error-signature regex: a literal, or the `.`
wildcard. -/
inductive PatChar where
  | lit (c : Char)
  | dot
deriving DecidableEq, Repr

/-- Single-character regex match. -/
def patCharMatches : PatChar → Char → Bool
  | .lit c, d => c = d
  | .dot, d => isRegexDot d

/-- Anchored match of a wildcard-literal signature. -/
def patMatchesAt : List PatChar → List Char → Bool
  | [], _ => true
  | _ :: _, [] => false
  | p :: ps, c :: cs => patCharMatches p c && patMatchesAt ps cs

/-- `pattern.test(output)` for a wildcard-literal signature: an anchored
match at some position. -/
def patTest (p : List PatChar) : List Char → Bool
  | [] => patMatchesAt p []
  | c :: cs => patMatchesAt p (c :: cs) || patTest p (cs)

/-- Literal signature text. -/
def mkLits (s : String) : List PatChar :=
  s.data.map PatChar.lit

/-- The ordered signature table of `checkForErrors`, exactly as in the
source: out-of-memory, missing main class, authentication failure, download
failure, invalid access token. -/
def errorPatterns : List (List PatChar × String) :=
  [(mkLits "java" ++ [.dot] ++ mkLits "lang" ++ [.dot] ++ mkLits "OutOfMemoryError",
    "内存不足，请增加分配的内存"),
   (mkLits "Could not find or load main class", "游戏文件损坏，请重新安装"),
   (mkLits "Authentication failed", "账户认证失败，请重新登录"),
   (mkLits "Failed to download", "文件下载失败，请检查网络连接"),
   (mkLits "Invalid access token", "访问令牌无效，请重新登录")]

/-- The `for … break` loop of `checkForErrors`: emitted
`game-error-detected` payloads `(error, message)`, at most one because the
loop breaks at the first matching rule. -/
def firstErrorRec : List (List PatChar × String) → List Char → List (String × String)
  | [], _ => []
  | (pat, msg) :: rest, out =>
    if patTest pat out then [(String.mk out, msg)] else firstErrorRec rest out

/-- `checkForErrors(output)`: the diagnostic events it emits. -/
def checkForErrorsEvents (output : String) : List (String × String) :=
  firstErrorRec errorPatterns output.data

/-- One record of the output buffer `gameOutput`. -/
structure OutputRecord where
  type : String
  data : String
  timestamp : Nat
deriving DecidableEq, Repr

/-- Events the launcher emits on its event bus. -/
inductive Event where
  | gameLaunched (pid : Nat)
  | gameLaunchFailed (msg : String)
  | gameOutputEv (channel : String) (data : String)
  | errorDetected (error : String) (message : String)
  | gameStopped (pid : Nat)
  | gameKilled (pid : Nat)
  | gameExit (code : Int)
deriving DecidableEq, Repr

/-- The stderr `data` listener installed by `setupProcessListeners`: push
the record onto `gameOutput`, emit `game-output`, then run
`checkForErrors` — which can add at most one diagnostic event and never
touches the pushed record. -/
def handleStderr (buf : List OutputRecord) (output : String) (ts : Nat) :
    List OutputRecord × List Event :=
  (buf ++ [⟨"stderr", output, ts⟩],
   Event.gameOutputEv "stderr" output ::
     (checkForErrorsEvents output).map fun e => Event.errorDetected e.1 e.2)

/-- A process handle, abstracted to its pid. -/
structure ProcHandle where
  pid : Nat
deriving DecidableEq, Repr

/-- The mutable launcher fields touched by launch/stop. -/
structure LauncherState where
  gameProcess : Option ProcHandle
  isRunning : Bool
  gameOutput : List OutputRecord
deriving DecidableEq, Repr

/-- Outcomes of the awaited collaborator calls inside `launchGame`, plus the
pid the OS would assign on a successful spawn. -/
structure LaunchEnv where
  javaResult : Except String JavaInfo
  versionResult : Except String VersionManifest
  accountResult : Except String Unit
  newPid : Nat

/-- Everything observable about one `launchGame` call: the returned or
thrown value, the launcher state afterwards, the emitted events, and how
many OS processes were spawned. -/
structure LaunchOutcome where
  result : Except String Nat
  state : LauncherState
  events : List Event
  spawned : Nat

/-- `launchGame(launchConfig)`: the running guard throws before anything
else; then Java, version and account validation each fail the call (with a
`game-launch-failed` event, no spawn, state untouched); on success exactly
one process is spawned, `isRunning` is set, the buffer is reset and
`game-launched` is emitted. -/
def launchGame (s : LauncherState) (env : LaunchEnv) : LaunchOutcome :=
  if s.isRunning then
    { result := .error "游戏正在运行中", state := s, events := [], spawned := 0 }
  else
    match env.javaResult with
    | .error e => { result := .error e, state := s, events := [.gameLaunchFailed e], spawned := 0 }
    | .ok _ =>
      match env.versionResult with
      | .error e => { result := .error e, state := s, events := [.gameLaunchFailed e], spawned := 0 }
      | .ok _ =>
        match env.accountResult with
        | .error e => { result := .error e, state := s, events := [.gameLaunchFailed e], spawned := 0 }
        | .ok _ =>
          { result := .ok env.newPid
            state := { gameProcess := some ⟨env.newPid⟩, isRunning := true, gameOutput := [] }
            events := [.gameLaunched env.newPid]
            spawned := 1 }

/-- `stopGame()`: `false` without process handle or with `isRunning` false;
otherwise send the termination signal (whose synchronous failure is the
`killFails` flag feeding the `catch`), clear `isRunning` and emit
`game-stopped`. -/
def stopGame (s : LauncherState) (killFails : Bool) : Bool × LauncherState × List Event :=
  if s.gameProcess.isNone || !s.isRunning then (false, s, [])
  else if killFails then (false, s, [])
  else
    (true, { s with isRunning := false },
     [.gameStopped ((s.gameProcess.map ProcHandle.pid).getD 0)])

/-- `Array.prototype.slice(start)` for an integer `start`: a negative start
counts from the end (clamped at 0), a nonnegative one from the front. -/
def jsSliceFrom (l : List α) (start : Int) : List α :=
  if start < 0 then l.drop (max (l.length + start) 0).toNat
  else l.drop start.toNat

/-- `getGameOutput(limit = 100)`: `gameOutput.slice(-limit)`. -/
def getGameOutput (buf : List OutputRecord) (limit : Nat := 100) : List OutputRecord :=
  jsSliceFrom buf (-(limit : Int))

/-- C1: when a session is already Running, `launchGame` fails immediately
with the already-running error: no validation outcome is consulted, no OS
process is spawned, no event is emitted, and the session state — process
handle, `isRunning`, and the `gameOutput` buffer — is returned untouched. -/
theorem c1_launch_guard (s : LauncherState) (env : LaunchEnv)
    (h : s.isRunning = true) :
    launchGame s env =
      { result := .error "游戏正在运行中", state := s, events := [], spawned := 0 } := by
  simp [launchGame, h]

/-- C1 witness: a concrete running session with a nonempty buffer, under
collaborators that would even fail validation, is left untouched. -/
theorem c1_launch_guard_witness :
    launchGame ⟨some ⟨7⟩, true, [⟨"stdout", "x", 0⟩]⟩
        ⟨.ok ⟨"p", .num 8, "OpenJDK", "64-bit", "JDK", true⟩, .error "missing", .ok (), 9⟩ =
      { result := .error "游戏正在运行中"
        state := ⟨some ⟨7⟩, true, [⟨"stdout", "x", 0⟩]⟩
        events := []
        spawned := 0 } :=
  c1_launch_guard _ _ rfl

/-- C8: whenever no session is Running — no process handle, or the
`isRunning` flag cleared — `stopGame` returns `false`, emits no event, and
leaves the state unchanged. -/
theorem c8_stop_noop (s : LauncherState) (killFails : Bool)
    (h : s.gameProcess = none ∨ s.isRunning = false) :
    stopGame s killFails = (false, s, []) := by
  rcases h with h | h
  · simp [stopGame, h]
  · simp [stopGame, h]

/-- C8 witness: stopping with no process handle (and with a stale buffer)
returns `false` with no events and an unchanged state. -/
theorem c8_stop_noop_witness :
    stopGame ⟨none, false, [⟨"stdout", "bye", 3⟩]⟩ false =
      (false, ⟨none, false, [⟨"stdout", "bye", 3⟩]⟩, []) :=
  c8_stop_noop _ _ (Or.inl rfl)

/-- C10: `getGameOutput n` is `gameOutput.slice(-n)`: for `n ≥ 1` it is
exactly the most recent `min n length` records in buffer order (a suffix of
the buffer), and for `n = 0` it is the whole buffer, because `slice(-0)` is
`slice(0)`. -/
theorem c10_get_game_output (buf : List OutputRecord) (n : Nat) :
    (1 ≤ n →
      getGameOutput buf n = buf.drop (buf.length - n) ∧
      (getGameOutput buf n).length = min n buf.length ∧
      getGameOutput buf n <:+ buf) ∧
    getGameOutput buf 0 = buf := by
  constructor
  · intro hn
    have hneg : (-(n : Int)) < 0 := by omega
    have harg : (max ((buf.length : Int) + -(n : Int)) 0).toNat = buf.length - n := by
      omega
    have hdrop : getGameOutput buf n = buf.drop (buf.length - n) := by
      rw [getGameOutput, jsSliceFrom, if_pos hneg, harg]
    refine ⟨hdrop, ?_, ?_⟩
    · rw [hdrop, List.length_drop]
      omega
    · rw [hdrop]
      exact List.drop_suffix _ _
  · simp [getGameOutput, jsSliceFrom]

/-- C10 witness: on a three-record buffer, a limit of 2 yields the two most
recent records and a limit of 0 yields the whole buffer. -/
theorem c10_get_game_output_witness :
    getGameOutput [⟨"stdout", "a", 1⟩, ⟨"stdout", "b", 2⟩, ⟨"stdout", "c", 3⟩] 2 =
      [⟨"stdout", "b", 2⟩, ⟨"stdout", "c", 3⟩] ∧
    getGameOutput [⟨"stdout", "a", 1⟩, ⟨"stdout", "b", 2⟩, ⟨"stdout", "c", 3⟩] 0 =
      [⟨"stdout", "a", 1⟩, ⟨"stdout", "b", 2⟩, ⟨"stdout", "c", 3⟩] := by
  constructor
  · rw [((c10_get_game_output
      [⟨"stdout", "a", 1⟩, ⟨"stdout", "b", 2⟩, ⟨"stdout", "c", 3⟩] 2).1 (by decide)).1]
    rfl
  · exact (c10_get_game_output
      [⟨"stdout", "a", 1⟩, ⟨"stdout", "b", 2⟩, ⟨"stdout", "c", 3⟩] 0).2

/-- C4 counterexample: at requested memory 2048 the two argument-building
paths disagree on the min-heap flag — `prepareLaunchArguments` emits
`-Xms1024M` (half of max) and not `-Xms512M`, while `generateJVMArgs` emits
`-Xms512M` (a quarter of max) and not `-Xms1024M` — so there is no single
fixed fraction used on every path. -/
theorem c4_heap_fraction_counterexample :
    "-Xms1024M" ∈ prepareJvmArguments 2048 8 ∧
    "-Xms1024M" ∉ gmGenerateJVMArgs 2048 "offline" ∧
    "-Xms512M" ∈ gmGenerateJVMArgs 2048 "offline" ∧
    "-Xms512M" ∉ prepareJvmArguments 2048 8 := by
  decide

/-- C4 amended: every argument-building path emits the max-heap flag equal
to the requested memory, but the min-heap fraction is path-dependent: half
of max in `prepareLaunchArguments`, a quarter of max in the GameManager
`generateJVMArgs` path and in `optimizeJVMArgs`. -/
theorem c4_heap_flags (memory : Nat) (javaVersion : Int) (accountType osType : String) :
    ("-Xmx" ++ toString memory ++ "M") ∈ prepareJvmArguments memory javaVersion ∧
    ("-Xms" ++ toString (memory / 2) ++ "M") ∈ prepareJvmArguments memory javaVersion ∧
    ("-Xmx" ++ toString memory ++ "M") ∈ gmGenerateJVMArgs memory accountType ∧
    ("-Xms" ++ toString (memory / 4) ++ "M") ∈ gmGenerateJVMArgs memory accountType ∧
    ("-Xmx" ++ toString memory ++ "M") ∈ optimizeJVMArgs javaVersion memory osType ∧
    ("-Xms" ++ toString (memory / 4) ++ "M") ∈ optimizeJVMArgs javaVersion memory osType := by
  refine ⟨?_, ?_, ?_, ?_, ?_, ?_⟩ <;>
    simp [prepareJvmArguments, gmGenerateJVMArgs, optimizeJVMArgs]

theorem collectLibPaths_eq_filterMap (gameDir : String) (ls : List MLibrary) :
    collectLibPaths gameDir ls =
      (ls.filterMap fun lib => lib.downloads.bind fun d => d.artifact).map
        fun a => gameDir ++ "/libraries/" ++ a.path := by
  induction ls with
  | nil => rfl
  | cons lib rest ih =>
    cases h : lib.downloads with
    | none => simp [collectLibPaths, List.filterMap_cons, h, ih]
    | some d =>
      cases ha : d.artifact with
      | none => simp [collectLibPaths, List.filterMap_cons, h, ha, ih]
      | some a => simp [collectLibPaths, List.filterMap_cons, h, ha, ih]

/-- C5: for every version manifest, the classpath string is the library
artifact paths taken from `manifest.libraries` in manifest order (entries
carrying an artifact), joined with the platform path delimiter, with the
main client archive path as the final entry. -/
theorem c5_classpath (delim gameDir : String) (v : VersionManifest) :
    generateClasspath delim gameDir v =
      String.intercalate delim
        (classpathEntriesSpec gameDir v ++ [clientJarPath gameDir v]) := by
  cases h : v.libraries with
  | none => simp [generateClasspath, classpathEntriesSpec, h]
  | some ls =>
    simp [generateClasspath, classpathEntriesSpec, h, collectLibPaths_eq_filterMap]

/-- C6 counterexample: on a probe that reports a version-7 runtime,
`validateJava` — the validator the launch path runs — throws the
incompatibility error (`Except.error` models `throw new Error`) instead of
returning a structured failure value, contradicting the claim that
validation never throws for expected incompatibility. -/
theorem c6_throws_counterexample :
    validateJava
        ⟨none, fun _ => some ⟨"/usr/bin/java", .num 7, "OpenJDK", "64-bit", "JDK", true⟩⟩
        (some "/usr/bin/java") =
      .error "Java 版本过低 (7)，需要 Java 8 或更高版本" := by
  rfl

/-- C6 amended: for a candidate with numeric version below 8, the launch
validator `validateJava` throws a typed incompatibility error, while it is
`checkJavaCompatibility` that rejects with a structured
`{compatible: false, message}` value and never throws. -/
theorem c6_validation (env : ValidateEnv) (p : String) (info : JavaInfo) (m : Int)
    (hprobe : env.probe p = some info) (hv : info.version = .num m) (hm : m < 8) :
    validateJava env (some p) =
      .error ("Java 版本过低 (" ++ toString m ++ ")，需要 Java 8 或更高版本") ∧
    checkJavaCompatibility info.version =
      { compatible := false, message := some "需要 Java 8 或更高版本", warning := none } := by
  constructor
  · simp [validateJava, hprobe, hv, jsValLt, hm, jsValToString]
  · simp [checkJavaCompatibility, hv, hm]

/-- C6 witness: the amended statement at a concrete version-6 probe. -/
theorem c6_validation_witness :
    validateJava
        ⟨none, fun _ => some ⟨"/opt/jdk6/bin/java", .num 6, "Oracle", "64-bit", "JDK", true⟩⟩
        (some "/opt/jdk6/bin/java") =
      .error ("Java 版本过低 (" ++ toString (6 : Int) ++ ")，需要 Java 8 或更高版本") ∧
    checkJavaCompatibility (JSVal.num 6) =
      { compatible := false, message := some "需要 Java 8 或更高版本", warning := none } :=
  c6_validation
    ⟨none, fun _ => some ⟨"/opt/jdk6/bin/java", .num 6, "Oracle", "64-bit", "JDK", true⟩⟩
    "/opt/jdk6/bin/java" ⟨"/opt/jdk6/bin/java", .num 6, "Oracle", "64-bit", "JDK", true⟩ 6
    rfl rfl (by decide)

theorem firstErrorRec_length_le_one (ps : List (List PatChar × String)) (o : List Char) :
    (firstErrorRec ps o).length ≤ 1 := by
  induction ps with
  | nil => simp [firstErrorRec]
  | cons q rest ih =>
    obtain ⟨pat, msg⟩ := q
    cases h : patTest pat o <;> simp [firstErrorRec, h, ih]

theorem firstErrorRec_first_match (pre : List (List PatChar × String)) (pat : List PatChar)
    (msg : String) (post : List (List PatChar × String)) (o : List Char)
    (hpre : ∀ q ∈ pre, patTest q.1 o = false) (hpat : patTest pat o = true) :
    firstErrorRec (pre ++ (pat, msg) :: post) o = [(String.mk o, msg)] := by
  induction pre with
  | nil => simp [firstErrorRec, hpat]
  | cons q rest ih =>
    obtain ⟨qp, qm⟩ := q
    have hq : patTest qp o = false := hpre (qp, qm) (by simp)
    simp only [List.cons_append, firstErrorRec, hq]
    simp only [Bool.false_eq_true, if_false]
    exact ih fun r hr => hpre r (List.mem_cons_of_mem _ hr)

/-- C7: the classifier applies the signature rules in the fixed order of
`errorPatterns` (out-of-memory, missing main class, authentication failure,
download failure, invalid access token), emits at most one diagnostic per
stderr record — exactly the first matching rule, so a record matching a
later rule as well reports only the higher-priority one — and the stderr
handler appends the original record to the buffer unmodified, with the
`game-output` event carrying the unmodified text. -/
theorem c7_classifier (buf : List OutputRecord) (out : String) (ts : Nat) :
    (checkForErrorsEvents out).length ≤ 1 ∧
    (handleStderr buf out ts).1 = buf ++ [⟨"stderr", out, ts⟩] ∧
    (handleStderr buf out ts).2.head? = some (.gameOutputEv "stderr" out) ∧
    (∀ pre pat msg post, errorPatterns = pre ++ (pat, msg) :: post →
      (∀ q ∈ pre, patTest q.1 out.data = false) → patTest pat out.data = true →
      checkForErrorsEvents out = [(out, msg)]) := by
  refine ⟨firstErrorRec_length_le_one _ _, rfl, rfl, ?_⟩
  intro pre pat msg post horder hpre hpat
  have h := firstErrorRec_first_match pre pat msg post out.data hpre hpat
  rw [checkForErrorsEvents, horder, h]

/-- C7 witness: a record matching both the out-of-memory rule and the
authentication-failure rule reports only the out-of-memory diagnostic. -/
theorem c7_classifier_witness :
    checkForErrorsEvents "java.lang.OutOfMemoryError after Authentication failed" =
      [("java.lang.OutOfMemoryError after Authentication failed",
        "内存不足，请增加分配的内存")] ∧
    patTest (mkLits "Authentication failed")
      "java.lang.OutOfMemoryError after Authentication failed".data = true := by
  constructor
  · exact (c7_classifier [] "java.lang.OutOfMemoryError after Authentication failed" 0).2.2.2
      []
      (mkLits "java" ++ [PatChar.dot] ++ mkLits "lang" ++ [PatChar.dot] ++
        mkLits "OutOfMemoryError")
      "内存不足，请增加分配的内存"
      [(mkLits "Could not find or load main class", "游戏文件损坏，请重新安装"),
       (mkLits "Authentication failed", "账户认证失败，请重新登录"),
       (mkLits "Failed to download", "文件下载失败，请检查网络连接"),
       (mkLits "Invalid access token", "访问令牌无效，请重新登录")]
      (by rfl) (by simp) (by decide)
  · decide

theorem matchDot32_of_exact (cs : List Char) (h32 : cs.length = 32)
    (hdot : ∀ c ∈ cs, isRegexDot c = true) :
    matchDot32 cs = some (cs, []) := by
  rw [matchDot32]
  rw [List.take_of_length_le (by omega), List.drop_eq_nil_of_le (by omega)]
  simp [h32, List.all_eq_true.mpr hdot]

theorem replaceFirst32_of_exact (cs : List Char) (h32 : cs.length = 32)
    (hdot : ∀ c ∈ cs, isRegexDot c = true) :
    replaceFirst32 cs = dashify cs := by
  cases cs with
  | nil => simp at h32
  | cons c rest =>
    rw [replaceFirst32, matchDot32_of_exact _ h32 hdot]
    simp

theorem take_drop_regroup32 (l : List Char) (hl : l.length = 32) :
    l.take 8 ++ ((l.drop 8).take 4 ++ ((l.drop 12).take 4 ++
      ((l.drop 16).take 4 ++ (l.drop 20).take 12))) = l := by
  have t1 : l.take 8 ++ (l.drop 8).take 4 = l.take 12 := by
    rw [← List.take_add]
  have t2 : l.take 12 ++ (l.drop 12).take 4 = l.take 16 := by
    rw [← List.take_add]
  have t3 : l.take 16 ++ (l.drop 16).take 4 = l.take 20 := by
    rw [← List.take_add]
  have t4 : l.take 20 ++ (l.drop 20).take 12 = l.take 32 := by
    rw [← List.take_add]
  calc l.take 8 ++ ((l.drop 8).take 4 ++ ((l.drop 12).take 4 ++
          ((l.drop 16).take 4 ++ (l.drop 20).take 12)))
      = (((l.take 8 ++ (l.drop 8).take 4) ++ (l.drop 12).take 4) ++
          (l.drop 16).take 4) ++ (l.drop 20).take 12 := by
        simp [List.append_assoc]
    _ = l.take 32 := by rw [t1, t2, t3, t4]
    _ = l := List.take_of_length_le (by omega)

/-- C2: offline UUID synthesis is deterministic — for any hex digest
function (standing for md5) the result is a pure function of the username
alone, identical on every call — and the returned string is the digest of
the fixed constant prefix `OfflinePlayer:` concatenated with the username,
regrouped as a canonical 8-4-4-4-12 hex UUID string. -/
theorem c2_offline_uuid (md5hex : String → String) (username : String)
    (hlen : ∀ s, (md5hex s).data.length = 32)
    (hhex : ∀ s, ∀ c ∈ (md5hex s).data, c ∈ "0123456789abcdef".data) :
    generateOfflineUUID md5hex username =
      String.mk (dashify (md5hex ("OfflinePlayer:" ++ username)).data) ∧
    ∃ a b c d e : List Char,
      a.length = 8 ∧ b.length = 4 ∧ c.length = 4 ∧ d.length = 4 ∧ e.length = 12 ∧
      a ++ (b ++ (c ++ (d ++ e))) = (md5hex ("OfflinePlayer:" ++ username)).data ∧
      (∀ ch ∈ a ++ (b ++ (c ++ (d ++ e))), ch ∈ "0123456789abcdef".data) ∧
      (generateOfflineUUID md5hex username).data =
        a ++ '-' :: (b ++ '-' :: (c ++ '-' :: (d ++ '-' :: e))) := by
  have hdot : ∀ c ∈ (md5hex ("OfflinePlayer:" ++ username)).data, isRegexDot c = true := by
    intro c hc
    have hmem := hhex ("OfflinePlayer:" ++ username) c hc
    fin_cases hmem <;> decide
  have h32 := hlen ("OfflinePlayer:" ++ username)
  have hrepl := replaceFirst32_of_exact _ h32 hdot
  have hval : generateOfflineUUID md5hex username =
      String.mk (dashify (md5hex ("OfflinePlayer:" ++ username)).data) := by
    rw [generateOfflineUUID, hrepl]
  refine ⟨hval, ?_⟩
  set hs := (md5hex ("OfflinePlayer:" ++ username)).data with hhs
  have hregroup := take_drop_regroup32 hs h32
  refine ⟨hs.take 8, (hs.drop 8).take 4, (hs.drop 12).take 4, (hs.drop 16).take 4,
    (hs.drop 20).take 12, ?_, ?_, ?_, ?_, ?_, hregroup, ?_, ?_⟩
  · simp only [List.length_take]; omega
  · simp only [List.length_take, List.length_drop]; omega
  · simp only [List.length_take, List.length_drop]; omega
  · simp only [List.length_take, List.length_drop]; omega
  · simp only [List.length_take, List.length_drop]; omega
  · intro ch hch
    rw [hregroup] at hch
    exact hhex ("OfflinePlayer:" ++ username) ch hch
  · rw [hval]
    rfl

/-- C2 witness: with a fixed 32-hex-character digest function the UUID is
the dashed regrouping of the digest, and the canonical decomposition is
realised concretely. -/
theorem c2_offline_uuid_witness :
    generateOfflineUUID (fun _ => "00112233445566778899aabbccddeeff") "Steve" =
      "00112233-4455-6677-8899-aabbccddeeff" ∧
    ∃ a b c d e : List Char,
      a.length = 8 ∧ b.length = 4 ∧ c.length = 4 ∧ d.length = 4 ∧ e.length = 12 ∧
      a ++ (b ++ (c ++ (d ++ e))) =
        ((fun _ => "00112233445566778899aabbccddeeff") ("OfflinePlayer:" ++ "Steve") :
          String).data ∧
      (∀ ch ∈ a ++ (b ++ (c ++ (d ++ e))), ch ∈ "0123456789abcdef".data) ∧
      (generateOfflineUUID (fun _ => "00112233445566778899aabbccddeeff") "Steve").data =
        a ++ '-' :: (b ++ '-' :: (c ++ '-' :: (d ++ '-' :: e))) := by
  have h := c2_offline_uuid (fun _ => "00112233445566778899aabbccddeeff") "Steve"
    (by
      intro s
      exact (by decide : ("00112233445566778899aabbccddeeff" : String).data.length = 32))
    (by
      intro s c hc
      have hc2 : c ∈ ("00112233445566778899aabbccddeeff" : String).data := hc
      fin_cases hc2 <;> decide)
  exact ⟨by rw [h.1]; rfl, h.2⟩

theorem splitOnChar_sep_cons (sep : Char) (rest : List Char) :
    splitOnChar sep (sep :: rest) = [] :: splitOnChar sep rest := by
  simp [splitOnChar]

theorem splitOnChar_append_sep (sep : Char) (lead rest : List Char)
    (h : sep ∉ lead) :
    splitOnChar sep (lead ++ sep :: rest) = lead :: splitOnChar sep rest := by
  induction lead with
  | nil => simp [splitOnChar]
  | cons c cs ih =>
    have hc : ¬(c = sep) := fun hcs => h (by simp [hcs])
    have hcs : sep ∉ cs := fun hm => h (List.mem_cons_of_mem _ hm)
    simp only [List.cons_append, splitOnChar, ih hcs]
    simp only [hc, if_false, reduceIte, List.append_eq]
    rw [ih hcs]

/-- C3 amended: per matched version token the stated normalisation rule
holds — a quoted `1.<minor>…` token yields the component after the `1`, any
other dotted token yields its leading component — and the single-line
banner containing `version "1.8.0_301"`, `OpenJDK` and `jdk` parses to
{version 8, vendor OpenJDK, kind JDK}.  Because every matching line
overwrites the token (last match wins), only banners without a later
overriding version/build match keep version 8, so the universal claim over
all banner texts containing those substrings fails (see the
counterexample). -/
theorem c3_version_rule :
    (∀ rest : List Char,
      normalizeVersion ('1' :: '.' :: rest) = (splitOnChar '.' rest).headD []) ∧
    (∀ lead rest : List Char, '.' ∉ lead → lead ≠ ['1'] →
      normalizeVersion (lead ++ '.' :: rest) = lead) ∧
    parseJavaVersion "OpenJDK version \"1.8.0_301\" jdk 64-bit" "/usr/bin/java" =
      some ⟨"/usr/bin/java", .num 8, "OpenJDK", "64-bit", "JDK", true⟩ := by
  refine ⟨?_, ?_, by decide⟩
  · intro rest
    have hc : (('1' : Char) :: '.' :: rest).contains '.' = true := by
      simp [List.contains_cons]
    have hsplit : splitOnChar '.' ('1' :: '.' :: rest) = ['1'] :: splitOnChar '.' rest := by
      simp [splitOnChar]
    simp [normalizeVersion, hc, hsplit]
  · intro lead rest hdot hne
    have hc : (lead ++ '.' :: rest).contains '.' = true :=
      List.elem_eq_true_of_mem (by simp)
    have hsplit := splitOnChar_append_sep '.' lead rest hdot
    simp [normalizeVersion, hc, hsplit, hne]

/-- C3 witness: the rule at concrete tokens — `1.8.0_301` normalises to
`8`, and `25.301-b09` normalises to `25`. -/
theorem c3_version_rule_witness :
    normalizeVersion ('1' :: '.' :: "8.0_301".data) = ['8'] ∧
    normalizeVersion ("25".data ++ '.' :: "301-b09".data) = "25".data := by
  constructor
  · rw [c3_version_rule.1 "8.0_301".data]
    decide
  · exact c3_version_rule.2.1 "25".data "301-b09".data (by decide) (by decide)

/-- C3 counterexample: the realistic two-line OpenJDK 8 banner contains the
substrings `version "1.8.0_301"`, `OpenJDK` and `jdk`, yet parses to a
candidate with version 25, because its last line matches the `(build …)`
regex and `25.301-b09, mixed mode` normalises to `25`, overwriting the 8. -/
theorem c3_banner_counterexample :
    hasSub "version \"1.8.0_301\"".data
      "openjdk version \"1.8.0_301\"\nOpenJDK 64-Bit Server VM (build 25.301-b09, mixed mode)".data
      = true ∧
    hasSub "OpenJDK".data
      "openjdk version \"1.8.0_301\"\nOpenJDK 64-Bit Server VM (build 25.301-b09, mixed mode)".data
      = true ∧
    hasSub "jdk".data
      "openjdk version \"1.8.0_301\"\nOpenJDK 64-Bit Server VM (build 25.301-b09, mixed mode)".data
      = true ∧
    parseJavaVersion
      "openjdk version \"1.8.0_301\"\nOpenJDK 64-Bit Server VM (build 25.301-b09, mixed mode)"
      "/usr/bin/java" =
      some ⟨"/usr/bin/java", .num 25, "OpenJDK", "64-bit", "JDK", true⟩ := by
  refine ⟨by decide, by decide, by decide, by decide⟩

theorem parseJavaVersion_version_sound (output p : String) (c : JavaInfo)
    (h : parseJavaVersion output p = some c) :
    (∀ n : Int, c.version = .num n → n ≠ 0) ∧
    (∀ s : String, c.version = .str s → s ≠ "") := by
  rw [parseJavaVersion] at h
  set st := (splitOnChar '\n' output.data).foldl stepLine ⟨[], "", "64-bit", "JRE"⟩ with hst
  by_cases hv : st.version = []
  · rw [if_pos hv] at h
    exact absurd h (by simp)
  · rw [if_neg hv] at h
    injection h with h
    subst h
    constructor
    · intro n hn
      simp only at hn
      rw [versionValue] at hn
      cases hp : parseIntJS (String.mk st.version) with
      | none => rw [hp] at hn; exact absurd hn (by simp)
      | some m =>
        rw [hp] at hn
        have hn2 : (if m = 0 then JSVal.str (String.mk st.version) else JSVal.num m) =
            JSVal.num n := hn
        by_cases hm : m = 0
        · rw [if_pos hm] at hn2
          exact absurd hn2 (by simp)
        · rw [if_neg hm] at hn2
          cases hn2
          exact hm
    · intro s hs
      simp only at hs
      rw [versionValue] at hs
      have hmk : String.mk st.version ≠ "" := by
        intro heq
        have := congrArg String.data heq
        exact hv this
      cases hp : parseIntJS (String.mk st.version) with
      | none =>
        rw [hp] at hs
        cases hs
        exact hmk
      | some m =>
        rw [hp] at hs
        have hs2 : (if m = 0 then JSVal.str (String.mk st.version) else JSVal.num m) =
            JSVal.str s := hs
        by_cases hm : m = 0
        · rw [if_pos hm] at hs2
          cases hs2
          exact hmk
        · rw [if_neg hm] at hs2
          exact absurd hs2 (by simp)

theorem mem_insertDesc (a x : JavaInfo) (l : List JavaInfo) :
    a ∈ insertDesc x l ↔ a = x ∨ a ∈ l := by
  induction l with
  | nil => simp [insertDesc]
  | cons y ys ih =>
    rw [insertDesc]
    by_cases h : sortKey x.version ≤ sortKey y.version
    · rw [if_pos h]
      simp only [List.mem_cons, ih]
      tauto
    · rw [if_neg h]
      simp only [List.mem_cons]

theorem mem_sortDescByVersion (a : JavaInfo) (l : List JavaInfo) :
    a ∈ sortDescByVersion l ↔ a ∈ l := by
  induction l with
  | nil => simp [sortDescByVersion]
  | cons x xs ih => simp [sortDescByVersion, mem_insertDesc, ih]

theorem mem_of_mem_dedupByKeyAux (a : JavaInfo) (seen : List String) (l : List JavaInfo)
    (h : a ∈ dedupByKeyAux seen l) : a ∈ l := by
  induction l generalizing seen with
  | nil => simp [dedupByKeyAux] at h
  | cons j js ih =>
    rw [dedupByKeyAux] at h
    by_cases hs : seen.contains (detectKey j) = true
    · rw [if_pos hs] at h
      exact List.mem_cons_of_mem _ (ih _ h)
    · rw [if_neg hs] at h
      rcases List.mem_cons.mp h with h1 | h1
      · exact h1 ▸ List.mem_cons_self _ _
      · exact List.mem_cons_of_mem _ (ih _ h1)

/-- C9 counterexample: a probe whose banner is `java version "beta"` yields
a candidate via `parseJavaVersion`, and `detectJavaVersions` returns it even
though its version could not be parsed as a number — the version field keeps
the raw string `beta`, so the returned list is not restricted to candidates
with an integer version ≥ 1. -/
theorem c9_unparseable_counterexample :
    detectJavaVersions [parseJavaVersion "java version \"beta\"" "/opt/java/bin/java"] =
      [⟨"/opt/java/bin/java", .str "beta", "", "64-bit", "JRE", true⟩] := by
  decide

/-- C9 amended: every candidate returned by a completed discovery scan over
`parseJavaVersion`-produced probes did come from some probe, carries a
nonempty version token, and its version field is a nonzero integer when
`parseInt` succeeded on the normalised token — otherwise the raw (possibly
non-numeric) token string is kept, so unparseable-version candidates can be
returned. -/
theorem c9_discovery (results : List (Option JavaInfo)) (c : JavaInfo)
    (hmem : c ∈ detectJavaVersions results)
    (hsrc : ∀ o ∈ results, ∀ j : JavaInfo, o = some j →
      ∃ out p, parseJavaVersion out p = some j) :
    some c ∈ results ∧
    (∀ n : Int, c.version = .num n → n ≠ 0) ∧
    (∀ s : String, c.version = .str s → s ≠ "") := by
  have h1 : c ∈ results.filterMap id := by
    have h0 := (mem_sortDescByVersion c _).mp hmem
    exact mem_of_mem_dedupByKeyAux c [] _ h0
  have h2 : some c ∈ results := by
    obtain ⟨o, ho, hoc⟩ := List.mem_filterMap.mp h1
    have : o = some c := hoc
    exact this ▸ ho
  obtain ⟨out, p, hparse⟩ := hsrc (some c) h2 c rfl
  have hsound := parseJavaVersion_version_sound out p c hparse
  exact ⟨h2, hsound.1, hsound.2⟩

/-- C9 witness: a scan over the single banner `java version "9"` returns the
version-9 candidate, which satisfies the amended guarantees. -/
theorem c9_discovery_witness :
    some (⟨"/usr/bin/java", .num 9, "", "64-bit", "JRE", true⟩ : JavaInfo) ∈
      [parseJavaVersion "java version \"9\"" "/usr/bin/java"] ∧
    (∀ n : Int,
      (⟨"/usr/bin/java", .num 9, "", "64-bit", "JRE", true⟩ : JavaInfo).version = .num n →
      n ≠ 0) ∧
    (∀ s : String,
      (⟨"/usr/bin/java", .num 9, "", "64-bit", "JRE", true⟩ : JavaInfo).version = .str s →
      s ≠ "") := by
  exact c9_discovery [parseJavaVersion "java version \"9\"" "/usr/bin/java"]
    ⟨"/usr/bin/java", .num 9, "", "64-bit", "JRE", true⟩
    (by decide)
    (fun o ho j hj => ⟨"java version \"9\"", "/usr/bin/java", by
      have ho2 : o = parseJavaVersion "java version \"9\"" "/usr/bin/java" := by
        simpa using ho
      rw [← ho2]
      exact hj⟩)
